import Mathlib

/-!
Shallow embedding of the `advanced-rag-examples` repository:
two Streamlit RAG chat applications (`seges-gpt-streamlit-app.py` and
`streamlit-app.py`) and the wiki-to-Markdown ingestion helpers
(`util/helpers.py`).  Each definition is translated from the source file
named in its doc comment; theorems about the claims follow the
definitions.
-/

/-- A chat transcript entry, `{"role": ..., "content": ...}` as appended to
`st.session_state.messages` in both apps. -/
structure Message where
  role : String
  content : String
deriving DecidableEq, Repr, Inhabited

/-- A Python `dict` with string keys and string values, modelled as an
association list; lookup takes the first matching key. -/
abbrev Dict := List (String × String)

/-- `d[k]` for a Python dict, returning `none` where Python raises
`KeyError`. -/
def dictGet (d : Dict) (k : String) : Option String :=
  (d.find? (fun p => p.1 == k)).map (fun p => p.2)

/-- `k in d` for a Python dict. -/
def hasKey (d : Dict) (k : String) : Bool :=
  (d.find? (fun p => p.1 == k)).isSome

/-- The argument pair of a `collection_load.query(query_texts=..., n_results=...)`
call against the Chroma vector store. -/
structure ChromaQueryCall where
  query_texts : List String
  n_results : Nat
deriving DecidableEq, Repr, Inhabited

/-- The shape of a Chroma query result used by the apps:
`result["documents"]` is a list (one entry per query text) of lists of chunk
texts, and `result["metadatas"]` the matching list of lists of metadata
dicts. -/
structure QueryResult where
  documents : List (List String)
  metadatas : List (List Dict)
deriving DecidableEq, Repr, Inhabited

/-- The citation suffix appended to a chunk text in
`seges-gpt-streamlit-app.py` line 85:
`context[i] + f" (filename: {file_names[i]}, page_number: {page_numbers[i]})"`. -/
def citationSuffix (doc fn pn : String) : String :=
  doc ++ " (filename: " ++ fn ++ ", page_number: " ++ pn ++ ")"

/-- The list comprehension `[idx[key] for idx in metadatas]`
(`seges-gpt-streamlit-app.py` lines 80-81); `none` models the `KeyError`
raised when some dict lacks the key. -/
def extractKeys (key : String) : List Dict → Option (List String)
  | [] => some []
  | m :: ms =>
    match dictGet m key with
    | none => none
    | some v => (extractKeys key ms).map (fun rest => v :: rest)

/-- The suffix loop `for i in range(len(context)): context[i] = context[i] + ...`
(`seges-gpt-streamlit-app.py` lines 84-85); `none` models the `IndexError`
raised when `file_names` or `page_numbers` is shorter than `context`. -/
def suffixLoop : List String → List String → List String → Option (List String)
  | [], _, _ => some []
  | doc :: docs, fn :: fns, pn :: pns =>
    (suffixLoop docs fns pns).map (fun rest => citationSuffix doc fn pn :: rest)
  | _ :: _, [], _ => none
  | _ :: _, _, [] => none

/-- The metadata-extraction and citation-suffix stage of the seges handler
(`seges-gpt-streamlit-app.py` lines 80-85): build `file_names` and
`page_numbers` from the metadata dicts, then suffix every chunk. -/
def extractAndSuffix (context : List String) (metadatas : List Dict) :
    Option (List String) := do
  let file_names ← extractKeys "file_name" metadatas
  let page_numbers ← extractKeys "page_label" metadatas
  suffixLoop context file_names page_numbers

/-- Modelled from the spec: the external `PromptTemplate.format` call
(`llama_index.core.PromptTemplate`, not part of this repository)
"substitutes `{context}` and `{query}` into a prompt template".  A single
left-to-right scan replaces each literal placeholder occurrence with the
corresponding argument, simultaneously (substituted text is not rescanned),
matching Python `str.format` on templates that use only these two fields. -/
def substPlaceholders (q ctx : List Char) : List Char → List Char
  | '{' :: 'c' :: 'o' :: 'n' :: 't' :: 'e' :: 'x' :: 't' :: '}' :: rest =>
      ctx ++ substPlaceholders q ctx rest
  | '{' :: 'q' :: 'u' :: 'e' :: 'r' :: 'y' :: '}' :: rest =>
      q ++ substPlaceholders q ctx rest
  | c :: rest => c :: substPlaceholders q ctx rest
  | [] => []

/-- Modelled from the spec: `PromptTemplate(template).format(query=..., context=...)`
as a pure string function. -/
def formatPrompt (template query context : String) : String :=
  String.mk (substPlaceholders query.data context.data template.data)

/-- The hardcoded default prompt of `seges-gpt-streamlit-app.py` (lines 57-63,
`default_prompt`). -/
def segesDefaultPrompt : String :=
  "You are a helpful assistant that answers questions about the content of documents and provides detailed expert advice. \n    You must provide your answer in the Danish language. Make the answer a short sentence and make it christmasy and fun.\n    If the answer contains multiple steps or points, provide the answer in a bullet format. Below the answer, you should add the source(s) of the information (file name and page number) formatted as in the following example.\n    But include only the one or maximum of two most relevant sources.\n    Kilder: (1) filnavn1, side 4 (2) filnavn2, side 36 (don\x27t print the \".pdf\" extension).\n    "

/-- The hardcoded prompt tail of `seges-gpt-streamlit-app.py` (line 65,
`end_of_prompt`), holding the `{context}` and `{query}` placeholders. -/
def segesEndOfPrompt : String :=
  "\n    ---------------------\n    {context}\n    ---------------------\n    Given the context information and not prior knowledge, answer the query.\n    Query: {query}\n    Answer: \n"

/-- The hardcoded default prompt of `streamlit-app.py` (lines 40-49,
`default_prompt`), which already contains both placeholders. -/
def vtdatDefaultPrompt : String :=
  "You are a helpful assistant that answers questions about the course material from \"Philosophy of Computer Science (VtDat)\" using provided context.\n    Context information is below.\n    ---------------------\n    {context}\n    ---------------------\n    Given the context information and not prior knowledge, answer the query. Always provide an answer in the Danish language.\n    Query: {query}\n    Answer: \n    "

/-- The similarity query issued by `seges-gpt-streamlit-app.py` line 77:
`collection_load.query(query_texts=[query], n_results=5)`. -/
def segesRetrievalCall (query : String) : ChromaQueryCall :=
  { query_texts := [query], n_results := 5 }

/-- The similarity query issued by `streamlit-app.py` line 57:
`collection_load.query(query_texts=[query], n_results=5)`. -/
def vtdatRetrievalCall (query : String) : ChromaQueryCall :=
  { query_texts := [query], n_results := 5 }

/-- Modelled from the spec: the third observed app instance of the repository
(not present under `src/`); per the spec, "Issue a similarity query against
the persistent vector store with the raw query text, requesting the top K=5
chunks (K is a fixed constant in all three observed instances)". -/
def thirdRetrievalCall (query : String) : ChromaQueryCall :=
  { query_texts := [query], n_results := 5 }

/-- Everything a handled query produces that the outside world can observe:
the store call issued, the context block substituted for `{context}`, the
rendered prompt, the message list and stream flag of the
`client.chat.completions.create` request, and the transcript afterwards. -/
structure HandlerOutput where
  call : ChromaQueryCall
  contextBlock : String
  renderedPrompt : String
  llmRequest : List Message
  streamed : Bool
  messages : List Message
deriving DecidableEq, Repr, Inhabited

/-- The query handler of `seges-gpt-streamlit-app.py` (lines 74-108).
`store` stands for `collection_load.query`; `streamChunks` is the sequence
of text deltas of the streamed completion, whose concatenation is what
`st.write_stream` returns; `none` models an uncaught exception that aborts
the handler. -/
def segesHandleQuery (store : ChromaQueryCall → QueryResult)
    (prompt_template : String) (messages : List Message) (query : String)
    (streamChunks : List String) : Option HandlerOutput := do
  let call := segesRetrievalCall query
  let result := store call
  let context ← result.documents.head?
  let metadatas ← result.metadatas.head?
  let context ← extractAndSuffix context metadatas
  let contextBlock := String.intercalate "\n\n" context
  let message := formatPrompt (prompt_template ++ " " ++ segesEndOfPrompt) query contextBlock
  let messages := messages ++ [{ role := "user", content := query }]
  let llmRequest := [{ role := "user", content := message }]
  let response := String.join streamChunks
  let messages := messages ++ [{ role := "assistant", content := response }]
  some { call := call, contextBlock := contextBlock, renderedPrompt := message,
         llmRequest := llmRequest, streamed := true, messages := messages }

/-- The query handler of `streamlit-app.py` (lines 55-88): same pipeline but
the retrieved chunks are joined without any citation suffix, and the
template is the side-panel text alone. -/
def vtdatHandleQuery (store : ChromaQueryCall → QueryResult)
    (prompt_template : String) (messages : List Message) (query : String)
    (streamChunks : List String) : Option HandlerOutput := do
  let call := vtdatRetrievalCall query
  let result := store call
  let context ← result.documents.head?
  let contextBlock := String.intercalate "\n\n" context
  let message := formatPrompt prompt_template query contextBlock
  let messages := messages ++ [{ role := "user", content := query }]
  let llmRequest := [{ role := "user", content := message }]
  let response := String.join streamChunks
  let messages := messages ++ [{ role := "assistant", content := response }]
  some { call := call, contextBlock := contextBlock, renderedPrompt := message,
         llmRequest := llmRequest, streamed := true, messages := messages }

/-- The reset-button handler of `seges-gpt-streamlit-app.py` (lines 71-72):
`st.session_state.messages = []`, run unconditionally when the button is
clicked, with no confirmation input of any kind. -/
def resetChat (_messages : List Message) : List Message := []

/-- Python `str.replace` at the character-list level: one left-to-right scan
replacing each non-overlapping occurrence of `pat` by `rep`, continuing after
the replaced text.  (Guarded to the non-empty patterns the source uses; an
empty pattern leaves the string unchanged here.) -/
def replaceChars (pat rep : List Char) : List Char → List Char
  | [] => []
  | c :: cs =>
    if pat.isPrefixOf (c :: cs) && !pat.isEmpty then
      rep ++ replaceChars pat rep (cs.drop (pat.length - 1))
    else
      c :: replaceChars pat rep cs
termination_by l => l.length
decreasing_by
  · simp only [List.length_drop, List.length_cons]
    omega
  · simp only [List.length_cons]
    omega

/-- The wiki-markup rewriting chain of `util/helpers.py` lines 77-83:
`page.content.replace("\n====", "###").replace("====", "").replace("\n===", "##").replace("===", "").replace("\n==", "#").replace("==", "")`. -/
def wikiContentTransform (s : String) : String :=
  String.mk
    (replaceChars "==".data "".data
      (replaceChars "\n==".data "#".data
        (replaceChars "===".data "".data
          (replaceChars "\n===".data "##".data
            (replaceChars "====".data "".data
              (replaceChars "\n====".data "###".data s.data))))))

/-- One element of a Markdown document as assembled through the `MdUtils`
builder calls in `util/helpers.py`: the document title passed to the
`MdUtils` constructor, a `new_header` call, a `new_paragraph` call, or a
`new_line` call. -/
inductive MdBlock where
  | docTitle : String → MdBlock
  | header : Nat → String → MdBlock
  | paragraph : String → MdBlock
  | newline : MdBlock
deriving DecidableEq, Repr

/-- The fields of a `wikipedia.WikipediaPage` used by
`create_and_save_wiki_md_file`. -/
structure WikiPage where
  title : String
  summary : String
  content : String
deriving DecidableEq, Repr, Inhabited

/-- `create_and_save_wiki_md_file` (`util/helpers.py` lines 60-83), as the
sequence of Markdown blocks written to the file: Summary heading + summary,
then title heading + the content with the wiki heading markup rewritten. -/
def create_and_save_wiki_md_file (page : WikiPage) : List MdBlock :=
  [MdBlock.docTitle page.title,
   MdBlock.header 1 "Summary",
   MdBlock.paragraph page.summary,
   MdBlock.newline,
   MdBlock.header 1 page.title,
   MdBlock.paragraph (wikiContentTransform page.content)]

/-- One entry of `page.content["sections"]` of a `fandom.FandomPage`. -/
structure FandomSection where
  title : String
  content : String
deriving DecidableEq, Repr, Inhabited

/-- The fields of a `fandom.FandomPage` used by `create_and_save_md_file`:
`page.content["title"]`, `page.summary`, `page.content["content"]`, and
`page.content["sections"]`. -/
structure FandomPage where
  title : String
  summary : String
  content : String
  sections : List FandomSection
deriving DecidableEq, Repr, Inhabited

/-- `create_and_save_md_file` (`util/helpers.py` lines 103-128), as the
sequence of Markdown blocks written to the file: Summary heading + summary,
title heading + body, then one level-2 heading + paragraph per section. -/
def create_and_save_md_file (page : FandomPage) : List MdBlock :=
  [MdBlock.docTitle page.title,
   MdBlock.header 1 "Summary",
   MdBlock.paragraph page.summary,
   MdBlock.newline,
   MdBlock.header 1 page.title,
   MdBlock.paragraph page.content,
   MdBlock.newline]
  ++ (page.sections.map (fun s =>
        [MdBlock.header 2 s.title, MdBlock.paragraph s.content, MdBlock.newline])).flatten

theorem replaceChars_nil (pat rep : List Char) : replaceChars pat rep [] = [] := by
  rw [replaceChars]

theorem replaceChars_skip (pat rep : List Char) (c : Char) (cs : List Char)
    (h : pat.isPrefixOf (c :: cs) = false) :
    replaceChars pat rep (c :: cs) = c :: replaceChars pat rep cs := by
  rw [replaceChars, h]
  simp

theorem replaceChars_matchHead (p : Char) (ps rep b : List Char) :
    replaceChars (p :: ps) rep ((p :: ps) ++ b) = rep ++ replaceChars (p :: ps) rep b := by
  have h1 : (p :: ps).isPrefixOf (p :: (ps ++ b)) = true :=
    List.isPrefixOf_iff_prefix.mpr (List.prefix_append _ _)
  rw [show (p :: ps) ++ b = p :: (ps ++ b) from rfl, replaceChars, h1]
  simp [List.drop_left]

theorem replaceChars_of_not_infix (pat rep l : List Char)
    (h : ¬ pat <:+: l) : replaceChars pat rep l = l := by
  induction l with
  | nil => rw [replaceChars]
  | cons c cs ih =>
    have hp : pat.isPrefixOf (c :: cs) = false := by
      rw [Bool.eq_false_iff]
      intro hpre
      exact h ( List.isPrefixOf_iff_prefix.mp hpre).isInfix
    rw [replaceChars_skip _ _ _ _ hp, ih (fun hi => h (List.infix_cons hi))]

theorem not_infix_of_mem_not_mem {pat l : List Char} {c : Char}
    (hc : c ∈ pat) (hl : c ∉ l) : ¬ pat <:+: l :=
  fun h => hl (h.subset hc)

theorem replaceChars_eqFree (pat rep l : List Char) (hc : '=' ∈ pat) (hl : '=' ∉ l) :
    replaceChars pat rep l = l :=
  replaceChars_of_not_infix _ _ _ (not_infix_of_mem_not_mem hc hl)

theorem replaceChars_append_headFree (p : Char) (ps rep a b : List Char)
    (ha : p ∉ a) :
    replaceChars (p :: ps) rep (a ++ b) = a ++ replaceChars (p :: ps) rep b := by
  induction a with
  | nil => simp
  | cons c a ih =>
    have hc : (p == c) = false :=
      beq_eq_false_iff_ne.mpr (fun h => ha (h ▸ List.mem_cons_self c a))
    have h : (p :: ps).isPrefixOf (c :: (a ++ b)) = false := by
      simp [List.isPrefixOf, hc]
    simp only [List.cons_append]
    rw [replaceChars_skip _ _ _ _ h,
      ih (fun hm => ha (List.mem_cons_of_mem _ hm))]

theorem replaceChars_append_nlPat (ps rep a b : List Char)
    (ha : '=' ∉ a) (hb : b.head? ≠ some '=') :
    replaceChars ('\n' :: '=' :: ps) rep (a ++ b) =
      a ++ replaceChars ('\n' :: '=' :: ps) rep b := by
  induction a with
  | nil => simp
  | cons c a ih =>
    have ha' : '=' ∉ a := fun hm => ha (List.mem_cons_of_mem _ hm)
    have hne : (a ++ b).head? ≠ some '=' := by
      cases a with
      | nil => simpa using hb
      | cons d a' =>
        have hd : ¬ d = '=' := fun h => ha' (h ▸ List.mem_cons_self d a')
        simpa using hd
    have h : ('\n' :: '=' :: ps).isPrefixOf (c :: (a ++ b)) = false := by
      cases hab : a ++ b with
      | nil => simp [List.isPrefixOf]
      | cons d rest =>
        rw [hab] at hne
        have hd : ('=' == d) = false :=
          beq_eq_false_iff_ne.mpr (fun h => hne (by simp [← h]))
        simp [List.isPrefixOf, hd]
    simp only [List.cons_append]
    rw [replaceChars_skip _ _ _ _ h, ih ha']

theorem isPrefixOf_eq_false_of_eqFree (ps l : List Char) (hl : '=' ∉ l) :
    (('=' :: ps).isPrefixOf l) = false := by
  cases l with
  | nil => rfl
  | cons c l' =>
    have h : ('=' == c) = false :=
      beq_eq_false_iff_ne.mpr (fun h => hl (h ▸ List.mem_cons_self c l'))
    simp [List.isPrefixOf, h]

theorem head_ne_eq_append (x y : List Char) (hx : '=' ∉ x) (hy : y.head? ≠ some '=') :
    (x ++ y).head? ≠ some '=' := by
  cases x with
  | nil => simpa using hy
  | cons c x' =>
    have h : ¬ c = '=' := fun h => hx (h ▸ List.mem_cons_self c x')
    simpa using h

theorem replaceChars_match_eq2 (rep b : List Char) :
    replaceChars ['=', '='] rep ('=' :: '=' :: b) = rep ++ replaceChars ['=', '='] rep b :=
  replaceChars_matchHead '=' ['='] rep b

theorem replaceChars_match_nl2 (rep b : List Char) :
    replaceChars ['\n', '=', '='] rep ('\n' :: '=' :: '=' :: b) =
      rep ++ replaceChars ['\n', '=', '='] rep b :=
  replaceChars_matchHead '\n' ['=', '='] rep b

theorem replaceChars_match_eq3 (rep b : List Char) :
    replaceChars ['=', '=', '='] rep ('=' :: '=' :: '=' :: b) =
      rep ++ replaceChars ['=', '=', '='] rep b :=
  replaceChars_matchHead '=' ['=', '='] rep b

theorem replaceChars_match_nl3 (rep b : List Char) :
    replaceChars ['\n', '=', '=', '='] rep ('\n' :: '=' :: '=' :: '=' :: b) =
      rep ++ replaceChars ['\n', '=', '=', '='] rep b :=
  replaceChars_matchHead '\n' ['=', '=', '='] rep b

theorem replaceChars_match_eq4 (rep b : List Char) :
    replaceChars ['=', '=', '=', '='] rep ('=' :: '=' :: '=' :: '=' :: b) =
      rep ++ replaceChars ['=', '=', '=', '='] rep b :=
  replaceChars_matchHead '=' ['=', '=', '='] rep b

theorem replaceChars_match_nl4 (rep b : List Char) :
    replaceChars ['\n', '=', '=', '=', '='] rep ('\n' :: '=' :: '=' :: '=' :: '=' :: b) =
      rep ++ replaceChars ['\n', '=', '=', '=', '='] rep b :=
  replaceChars_matchHead '\n' ['=', '=', '=', '='] rep b

theorem dictGet_isSome (d : Dict) (k : String) :
    (dictGet d k).isSome = hasKey d k := by
  simp [dictGet, hasKey]

theorem suffixLoop_eq_zipWith3 (docs fns pns l : List String)
    (h : suffixLoop docs fns pns = some l) :
    l = List.zipWith3 citationSuffix docs fns pns := by
  induction docs generalizing fns pns l with
  | nil =>
    simp [suffixLoop] at h
    simp [← h, List.zipWith3]
  | cons d docs ih =>
    cases fns with
    | nil => simp [suffixLoop] at h
    | cons fn fns =>
      cases pns with
      | nil => simp [suffixLoop] at h
      | cons pn pns =>
        simp [suffixLoop] at h
        obtain ⟨rest, hrest, hl⟩ := h
        simp [← hl, List.zipWith3, ih _ _ _ hrest]

theorem suffixLoop_isSome_iff (docs fns pns : List String) :
    (suffixLoop docs fns pns).isSome ↔
      docs.length ≤ fns.length ∧ docs.length ≤ pns.length := by
  induction docs generalizing fns pns with
  | nil => simp [suffixLoop]
  | cons d docs ih =>
    cases fns with
    | nil => simp [suffixLoop]
    | cons fn fns =>
      cases pns with
      | nil => simp [suffixLoop]
      | cons pn pns =>
        simp [suffixLoop, ih]

theorem extractKeys_length (key : String) (ms : List Dict) (l : List String)
    (h : extractKeys key ms = some l) : l.length = ms.length := by
  induction ms generalizing l with
  | nil =>
    simp [extractKeys] at h
    simp [← h]
  | cons m ms ih =>
    cases hg : dictGet m key with
    | none => simp [extractKeys, hg] at h
    | some v =>
      simp [extractKeys, hg] at h
      obtain ⟨rest, hrest, hl⟩ := h
      simp [← hl, ih _ hrest]

theorem extractKeys_isSome_iff (key : String) (ms : List Dict) :
    (extractKeys key ms).isSome ↔ ∀ m ∈ ms, hasKey m key = true := by
  induction ms with
  | nil => simp [extractKeys]
  | cons m ms ih =>
    cases hg : dictGet m key with
    | none =>
      have hk : hasKey m key = false := by
        rw [← dictGet_isSome, hg]
        rfl
      simp [extractKeys, hg, hk]
    | some v =>
      have hk : hasKey m key = true := by
        rw [← dictGet_isSome, hg]
        rfl
      simp [extractKeys, hg, hk, ih]

theorem extractAndSuffix_eq_zipWith3 (context : List String) (metadatas : List Dict)
    (fns pns sctx : List String)
    (hf : extractKeys "file_name" metadatas = some fns)
    (hp : extractKeys "page_label" metadatas = some pns)
    (hs : extractAndSuffix context metadatas = some sctx) :
    sctx = List.zipWith3 citationSuffix context fns pns := by
  rw [extractAndSuffix, hf, hp] at hs
  simp at hs
  exact suffixLoop_eq_zipWith3 _ _ _ _ hs

theorem extractAndSuffix_isSome_iff (context : List String) (metadatas : List Dict) :
    (extractAndSuffix context metadatas).isSome ↔
      (context.length ≤ metadatas.length ∧
        ∀ m ∈ metadatas, hasKey m "file_name" = true ∧ hasKey m "page_label" = true) := by
  cases hf : extractKeys "file_name" metadatas with
  | none =>
    have h1 : ¬ ∀ m ∈ metadatas, hasKey m "file_name" = true := by
      rw [← extractKeys_isSome_iff, hf]
      simp
    simp only [extractAndSuffix, hf, Option.bind_eq_bind, Option.none_bind,
      Option.isSome_none, Bool.false_eq_true, false_iff, not_and]
    intro _ h
    exact h1 (fun m hm => (h m hm).1)
  | some fns =>
    cases hp : extractKeys "page_label" metadatas with
    | none =>
      have h1 : ¬ ∀ m ∈ metadatas, hasKey m "page_label" = true := by
        rw [← extractKeys_isSome_iff, hp]
        simp
      simp only [extractAndSuffix, hf, hp, Option.bind_eq_bind, Option.some_bind,
        Option.none_bind, Option.isSome_none, Bool.false_eq_true, false_iff, not_and]
      intro _ h
      exact h1 (fun m hm => (h m hm).2)
    | some pns =>
      have hfl := extractKeys_length _ _ _ hf
      have hpl := extractKeys_length _ _ _ hp
      have h1 : ∀ m ∈ metadatas, hasKey m "file_name" = true := by
        rw [← extractKeys_isSome_iff, hf]
        rfl
      have h2 : ∀ m ∈ metadatas, hasKey m "page_label" = true := by
        rw [← extractKeys_isSome_iff, hp]
        rfl
      simp only [extractAndSuffix, hf, hp, Option.bind_eq_bind, Option.some_bind]
      rw [suffixLoop_isSome_iff]
      constructor
      · rintro ⟨hl1, hl2⟩
        exact ⟨by omega, fun m hm => ⟨h1 m hm, h2 m hm⟩⟩
      · rintro ⟨hl, -⟩
        exact ⟨by omega, by omega⟩

theorem segesHandleQuery_spec (store : ChromaQueryCall → QueryResult)
    (tpl : String) (ms : List Message) (q : String) (chunks : List String)
    (context : List String) (metadatas : List Dict) (sctx : List String)
    (hd : (store (segesRetrievalCall q)).documents.head? = some context)
    (hm : (store (segesRetrievalCall q)).metadatas.head? = some metadatas)
    (hs : extractAndSuffix context metadatas = some sctx) :
    segesHandleQuery store tpl ms q chunks = some
      { call := segesRetrievalCall q,
        contextBlock := String.intercalate "\n\n" sctx,
        renderedPrompt :=
          formatPrompt (tpl ++ " " ++ segesEndOfPrompt) q (String.intercalate "\n\n" sctx),
        llmRequest :=
          [{ role := "user",
             content :=
               formatPrompt (tpl ++ " " ++ segesEndOfPrompt) q
                 (String.intercalate "\n\n" sctx) }],
        streamed := true,
        messages := ms ++ [{ role := "user", content := q },
                           { role := "assistant", content := String.join chunks }] } := by
  simp [segesHandleQuery, hd, hm, hs]

theorem segesHandleQuery_inv (store : ChromaQueryCall → QueryResult)
    (tpl : String) (ms : List Message) (q : String) (chunks : List String)
    (out : HandlerOutput)
    (h : segesHandleQuery store tpl ms q chunks = some out) :
    ∃ context metadatas sctx,
      (store (segesRetrievalCall q)).documents.head? = some context ∧
      (store (segesRetrievalCall q)).metadatas.head? = some metadatas ∧
      extractAndSuffix context metadatas = some sctx ∧
      out = { call := segesRetrievalCall q,
              contextBlock := String.intercalate "\n\n" sctx,
              renderedPrompt :=
                formatPrompt (tpl ++ " " ++ segesEndOfPrompt) q
                  (String.intercalate "\n\n" sctx),
              llmRequest :=
                [{ role := "user",
                   content :=
                     formatPrompt (tpl ++ " " ++ segesEndOfPrompt) q
                       (String.intercalate "\n\n" sctx) }],
              streamed := true,
              messages := ms ++ [{ role := "user", content := q },
                                 { role := "assistant", content := String.join chunks }] } := by
  cases hd : (store (segesRetrievalCall q)).documents.head? with
  | none => simp [segesHandleQuery, hd] at h
  | some context =>
    cases hm : (store (segesRetrievalCall q)).metadatas.head? with
    | none => simp [segesHandleQuery, hd, hm] at h
    | some metadatas =>
      cases hs : extractAndSuffix context metadatas with
      | none => simp [segesHandleQuery, hd, hm, hs] at h
      | some sctx =>
        refine ⟨context, metadatas, sctx, rfl, rfl, hs, ?_⟩
        have := segesHandleQuery_spec store tpl ms q chunks context metadatas sctx hd hm hs
        rw [h] at this
        exact (Option.some.injEq _ _ ▸ this :)

theorem segesHandleQuery_none (store : ChromaQueryCall → QueryResult)
    (tpl : String) (ms : List Message) (q : String) (chunks : List String)
    (context : List String) (metadatas : List Dict)
    (hd : (store (segesRetrievalCall q)).documents.head? = some context)
    (hm : (store (segesRetrievalCall q)).metadatas.head? = some metadatas)
    (hs : extractAndSuffix context metadatas = none) :
    segesHandleQuery store tpl ms q chunks = none := by
  simp [segesHandleQuery, hd, hm, hs]

theorem vtdatHandleQuery_spec (store : ChromaQueryCall → QueryResult)
    (tpl : String) (ms : List Message) (q : String) (chunks : List String)
    (context : List String)
    (hd : (store (vtdatRetrievalCall q)).documents.head? = some context) :
    vtdatHandleQuery store tpl ms q chunks = some
      { call := vtdatRetrievalCall q,
        contextBlock := String.intercalate "\n\n" context,
        renderedPrompt := formatPrompt tpl q (String.intercalate "\n\n" context),
        llmRequest :=
          [{ role := "user",
             content := formatPrompt tpl q (String.intercalate "\n\n" context) }],
        streamed := true,
        messages := ms ++ [{ role := "user", content := q },
                           { role := "assistant", content := String.join chunks }] } := by
  simp [vtdatHandleQuery, hd]

theorem vtdatHandleQuery_inv (store : ChromaQueryCall → QueryResult)
    (tpl : String) (ms : List Message) (q : String) (chunks : List String)
    (out : HandlerOutput)
    (h : vtdatHandleQuery store tpl ms q chunks = some out) :
    ∃ context,
      (store (vtdatRetrievalCall q)).documents.head? = some context ∧
      out = { call := vtdatRetrievalCall q,
              contextBlock := String.intercalate "\n\n" context,
              renderedPrompt := formatPrompt tpl q (String.intercalate "\n\n" context),
              llmRequest :=
                [{ role := "user",
                   content := formatPrompt tpl q (String.intercalate "\n\n" context) }],
              streamed := true,
              messages := ms ++ [{ role := "user", content := q },
                                 { role := "assistant", content := String.join chunks }] } := by
  cases hd : (store (vtdatRetrievalCall q)).documents.head? with
  | none => simp [vtdatHandleQuery, hd] at h
  | some context =>
    refine ⟨context, rfl, ?_⟩
    have := vtdatHandleQuery_spec store tpl ms q chunks context hd
    rw [h] at this
    exact (Option.some.injEq _ _ ▸ this :)

theorem suffixLoop_length (docs fns pns l : List String)
    (h : suffixLoop docs fns pns = some l) : l.length = docs.length := by
  induction docs generalizing fns pns l with
  | nil =>
    simp [suffixLoop] at h
    simp [← h]
  | cons d docs ih =>
    cases fns with
    | nil => simp [suffixLoop] at h
    | cons fn fns =>
      cases pns with
      | nil => simp [suffixLoop] at h
      | cons pn pns =>
        simp [suffixLoop] at h
        obtain ⟨rest, hrest, hl⟩ := h
        simp [← hl, ih _ _ _ hrest]

theorem extractAndSuffix_length (context : List String) (metadatas : List Dict)
    (sctx : List String) (h : extractAndSuffix context metadatas = some sctx) :
    sctx.length = context.length := by
  cases hf : extractKeys "file_name" metadatas with
  | none => simp [extractAndSuffix, hf] at h
  | some fns =>
    cases hp : extractKeys "page_label" metadatas with
    | none => simp [extractAndSuffix, hf, hp] at h
    | some pns =>
      rw [extractAndSuffix, hf, hp] at h
      simp at h
      exact suffixLoop_length _ _ _ _ h

/-- Example metadata dict of a retrieved chunk, used by the concrete
witnesses below. -/
def exMeta1 : Dict := [("file_name", "rapport1.pdf"), ("page_label", "4")]

/-- A second example metadata dict. -/
def exMeta2 : Dict := [("file_name", "rapport2.pdf"), ("page_label", "12")]

/-- An example vector store returning two chunks with full metadata for any
call. -/
def exStore : ChromaQueryCall → QueryResult := fun _ =>
  { documents := [["chunk one", "chunk two"]],
    metadatas := [[exMeta1, exMeta2]] }

/-- The seges handler output on the example store and a tiny template. -/
def exSegesOut : HandlerOutput :=
  (segesHandleQuery exStore "{context}|{query}" [] "hej" ["a", "b"]).get!

/-- The vtdat handler output on the example store and a tiny template. -/
def exVtdatOut : HandlerOutput :=
  (vtdatHandleQuery exStore "{context}|{query}" [] "hej" ["a", "b"]).get!

theorem exSeges_eval :
    segesHandleQuery exStore "{context}|{query}" [] "hej" ["a", "b"] = some exSegesOut := rfl

theorem exVtdat_eval :
    vtdatHandleQuery exStore "{context}|{query}" [] "hej" ["a", "b"] = some exVtdatOut := rfl

/-- An example prior transcript entry. -/
def exMsg : Message := { role := "user", content := "foo" }

/-- The seges handler output on the example store with a non-empty prior
transcript. -/
def exSegesOut2 : HandlerOutput :=
  (segesHandleQuery exStore "{context}|{query}" [exMsg] "hej" ["a", "b"]).get!

/-- The vtdat handler output on the example store with a non-empty prior
transcript. -/
def exVtdatOut2 : HandlerOutput :=
  (vtdatHandleQuery exStore "{context}|{query}" [exMsg] "hej" ["a", "b"]).get!

theorem exSeges2_eval :
    segesHandleQuery exStore "{context}|{query}" [exMsg] "hej" ["a", "b"] = some exSegesOut2 := rfl

theorem exVtdat2_eval :
    vtdatHandleQuery exStore "{context}|{query}" [exMsg] "hej" ["a", "b"] = some exVtdatOut2 := rfl

/-- C2: for every handled user query, in both app instances, the transcript
afterwards is the prior transcript plus exactly two entries appended in
order: first `{role: user, content: query}`, then `{role: assistant,
content: concatenation of the streamed chunks}`; in particular it has
exactly two more entries than before. -/
theorem C2_transcript_gains_two (store : ChromaQueryCall → QueryResult)
    (tpl q : String) (ms : List Message) (chunks : List String)
    (out outv : HandlerOutput)
    (h : segesHandleQuery store tpl ms q chunks = some out)
    (hv : vtdatHandleQuery store tpl ms q chunks = some outv) :
    out.messages = ms ++ [{ role := "user", content := q },
                          { role := "assistant", content := String.join chunks }] ∧
    out.messages.length = ms.length + 2 ∧
    outv.messages = ms ++ [{ role := "user", content := q },
                           { role := "assistant", content := String.join chunks }] ∧
    outv.messages.length = ms.length + 2 := by
  obtain ⟨c, m, s, -, -, -, ho⟩ := segesHandleQuery_inv _ _ _ _ _ _ h
  obtain ⟨c', -, hov⟩ := vtdatHandleQuery_inv _ _ _ _ _ _ hv
  subst ho hov
  refine ⟨rfl, by simp, rfl, by simp⟩

/-- Witness for C2 at a concrete store, query and stream. -/
theorem C2_transcript_gains_two_witness :
    exSegesOut.messages = [] ++ [{ role := "user", content := "hej" },
      { role := "assistant", content := String.join ["a", "b"] }] ∧
    exSegesOut.messages.length = ([] : List Message).length + 2 ∧
    exVtdatOut.messages = [] ++ [{ role := "user", content := "hej" },
      { role := "assistant", content := String.join ["a", "b"] }] ∧
    exVtdatOut.messages.length = ([] : List Message).length + 2 :=
  C2_transcript_gains_two exStore "{context}|{query}" "hej" [] ["a", "b"]
    exSegesOut exVtdatOut exSeges_eval exVtdat_eval

/-- C3: the session-reset control (`seges-gpt-streamlit-app.py` lines 71-72)
replaces any transcript, of any length, with the empty transcript; the
handler takes no confirmation input, so the reset is unconditional. -/
theorem C3_reset_unconditional (ms : List Message) : resetChat ms = [] := rfl

/-- C4: both query handlers are append-only on the transcript: whenever a
query is handled, the prior transcript is a prefix of the resulting
transcript, so no existing entry is removed, reordered or edited (the
explicit reset, `resetChat`, is the stated exception). -/
theorem C4_append_only (store : ChromaQueryCall → QueryResult)
    (tpl q : String) (ms : List Message) (chunks : List String)
    (out outv : HandlerOutput)
    (h : segesHandleQuery store tpl ms q chunks = some out)
    (hv : vtdatHandleQuery store tpl ms q chunks = some outv) :
    ms <+: out.messages ∧ ms <+: outv.messages := by
  obtain ⟨c, m, s, -, -, -, ho⟩ := segesHandleQuery_inv _ _ _ _ _ _ h
  obtain ⟨c', -, hov⟩ := vtdatHandleQuery_inv _ _ _ _ _ _ hv
  subst ho hov
  exact ⟨List.prefix_append _ _, List.prefix_append _ _⟩

/-- Witness for C4 at a concrete store and a non-empty prior transcript. -/
theorem C4_append_only_witness :
    [exMsg] <+: exSegesOut2.messages ∧ [exMsg] <+: exVtdatOut2.messages :=
  C4_append_only exStore "{context}|{query}" "hej" [exMsg] ["a", "b"]
    exSegesOut2 exVtdatOut2 exSeges2_eval exVtdat2_eval

/-- C1 (counterexample): in the `streamlit-app.py` instance, a query with a
non-empty retrieval result yields a context block that is the raw chunk
texts joined by blank lines, with no file-name/page-label suffix appended to
any chunk — so the claim that the context block of every instance consists
of suffixed chunks is false on this concrete input. -/
theorem C1_counterexample :
    exVtdatOut.contextBlock = "chunk one\n\nchunk two" ∧
    exVtdatOut.contextBlock ≠
      String.intercalate "\n\n"
        [citationSuffix "chunk one" "rapport1.pdf" "4",
         citationSuffix "chunk two" "rapport2.pdf" "12"] := by
  constructor
  · rfl
  · decide

/-- C1 (amended): for every query, the context block of the seges app is every
retrieved chunk text with the `citationSuffix` (file name and page label)
appended, joined by blank lines in the rank order returned by the store; the
context block of the vtdat app is the raw retrieved chunk texts joined by blank
lines in rank order, with no suffix. -/
theorem C1_contextBlock_characterization (store : ChromaQueryCall → QueryResult)
    (tpl q : String) (ms : List Message) (chunks : List String)
    (out outv : HandlerOutput)
    (docs : List String) (mds : List Dict) (fns pns docsv : List String)
    (hd : (store (segesRetrievalCall q)).documents.head? = some docs)
    (hm : (store (segesRetrievalCall q)).metadatas.head? = some mds)
    (hf : extractKeys "file_name" mds = some fns)
    (hp : extractKeys "page_label" mds = some pns)
    (h : segesHandleQuery store tpl ms q chunks = some out)
    (hdv : (store (vtdatRetrievalCall q)).documents.head? = some docsv)
    (hv : vtdatHandleQuery store tpl ms q chunks = some outv) :
    out.contextBlock =
      String.intercalate "\n\n" (List.zipWith3 citationSuffix docs fns pns) ∧
    outv.contextBlock = String.intercalate "\n\n" docsv := by
  constructor
  · obtain ⟨c, m, s, hdc, hmc, hsc, ho⟩ := segesHandleQuery_inv _ _ _ _ _ _ h
    rw [hd] at hdc
    rw [hm] at hmc
    injection hdc with hdc
    injection hmc with hmc
    subst hdc hmc
    have hz := extractAndSuffix_eq_zipWith3 _ _ _ _ _ hf hp hsc
    rw [ho, ← hz]
  · obtain ⟨c', hdc', hov⟩ := vtdatHandleQuery_inv _ _ _ _ _ _ hv
    rw [hdv] at hdc'
    injection hdc' with hdc'
    subst hdc'
    rw [hov]

/-- Witness for the amended C1 at a concrete store with two chunks. -/
theorem C1_contextBlock_characterization_witness :
    exSegesOut.contextBlock = String.intercalate "\n\n"
      (List.zipWith3 citationSuffix ["chunk one", "chunk two"]
        ["rapport1.pdf", "rapport2.pdf"] ["4", "12"]) ∧
    exVtdatOut.contextBlock = String.intercalate "\n\n" ["chunk one", "chunk two"] :=
  C1_contextBlock_characterization exStore "{context}|{query}" "hej" [] ["a", "b"]
    exSegesOut exVtdatOut ["chunk one", "chunk two"] [exMeta1, exMeta2]
    ["rapport1.pdf", "rapport2.pdf"] ["4", "12"] ["chunk one", "chunk two"]
    rfl rfl rfl rfl exSeges_eval rfl exVtdat_eval

/-- C5: every app instance issues the similarity query with the raw query
text as the single query text and a literal `n_results = 5`; the constant is
the same in all instances (the third instance is modelled from the spec) and
does not depend on the query text — and the handlers issue exactly this
call. -/
theorem C5_fixed_topk (q qq : String) (store : ChromaQueryCall → QueryResult)
    (tpl : String) (ms : List Message) (chunks : List String)
    (out outv : HandlerOutput)
    (h : segesHandleQuery store tpl ms q chunks = some out)
    (hv : vtdatHandleQuery store tpl ms q chunks = some outv) :
    segesRetrievalCall q = { query_texts := [q], n_results := 5 } ∧
    vtdatRetrievalCall q = { query_texts := [q], n_results := 5 } ∧
    thirdRetrievalCall q = { query_texts := [q], n_results := 5 } ∧
    out.call = segesRetrievalCall q ∧
    outv.call = vtdatRetrievalCall q ∧
    (segesRetrievalCall q).n_results = (segesRetrievalCall qq).n_results ∧
    (segesRetrievalCall q).n_results = (vtdatRetrievalCall qq).n_results ∧
    (segesRetrievalCall q).n_results = (thirdRetrievalCall qq).n_results := by
  obtain ⟨c, m, s, -, -, -, ho⟩ := segesHandleQuery_inv _ _ _ _ _ _ h
  obtain ⟨c', -, hov⟩ := vtdatHandleQuery_inv _ _ _ _ _ _ hv
  subst ho hov
  exact ⟨rfl, rfl, rfl, rfl, rfl, rfl, rfl, rfl⟩

/-- Witness for C5 at a concrete store and two distinct query texts. -/
theorem C5_fixed_topk_witness :
    segesRetrievalCall "hej" = { query_texts := ["hej"], n_results := 5 } ∧
    vtdatRetrievalCall "hej" = { query_texts := ["hej"], n_results := 5 } ∧
    thirdRetrievalCall "hej" = { query_texts := ["hej"], n_results := 5 } ∧
    exSegesOut.call = segesRetrievalCall "hej" ∧
    exVtdatOut.call = vtdatRetrievalCall "hej" ∧
    (segesRetrievalCall "hej").n_results = (segesRetrievalCall "anden").n_results ∧
    (segesRetrievalCall "hej").n_results = (vtdatRetrievalCall "anden").n_results ∧
    (segesRetrievalCall "hej").n_results = (thirdRetrievalCall "anden").n_results :=
  C5_fixed_topk "hej" "anden" exStore "{context}|{query}" [] ["a", "b"]
    exSegesOut exVtdatOut exSeges_eval exVtdat_eval

/-- C6: in both app instances the chat-completion request carries exactly
one message, with role `user` and content the fully rendered prompt —
independent of the prior transcript, which is not part of the request — and
the request asks for a streamed response. -/
theorem C6_single_turn_streamed (store : ChromaQueryCall → QueryResult)
    (tpl q : String) (ms : List Message) (chunks : List String)
    (out outv : HandlerOutput)
    (h : segesHandleQuery store tpl ms q chunks = some out)
    (hv : vtdatHandleQuery store tpl ms q chunks = some outv) :
    out.llmRequest = [{ role := "user", content := out.renderedPrompt }] ∧
    out.llmRequest.length = 1 ∧
    out.streamed = true ∧
    outv.llmRequest = [{ role := "user", content := outv.renderedPrompt }] ∧
    outv.llmRequest.length = 1 ∧
    outv.streamed = true := by
  obtain ⟨c, m, s, -, -, -, ho⟩ := segesHandleQuery_inv _ _ _ _ _ _ h
  obtain ⟨c', -, hov⟩ := vtdatHandleQuery_inv _ _ _ _ _ _ hv
  subst ho hov
  exact ⟨rfl, rfl, rfl, rfl, rfl, rfl⟩

/-- Witness for C6 at a concrete store and query. -/
theorem C6_single_turn_streamed_witness :
    exSegesOut.llmRequest = [{ role := "user", content := exSegesOut.renderedPrompt }] ∧
    exSegesOut.llmRequest.length = 1 ∧
    exSegesOut.streamed = true ∧
    exVtdatOut.llmRequest = [{ role := "user", content := exVtdatOut.renderedPrompt }] ∧
    exVtdatOut.llmRequest.length = 1 ∧
    exVtdatOut.streamed = true :=
  C6_single_turn_streamed exStore "{context}|{query}" "hej" [] ["a", "b"]
    exSegesOut exVtdatOut exSeges_eval exVtdat_eval

/-- C7: the rendered prompt is the result of substituting the context block
for `{context}` and the query for `{query}` in the prompt template of the app:
in the seges app the template is the side-panel text (whose default is
`segesDefaultPrompt`) followed by the hardcoded `segesEndOfPrompt` that
carries the placeholders; in the vtdat app it is the side-panel text alone
(whose default is `vtdatDefaultPrompt`). -/
theorem C7_prompt_from_template (store : ChromaQueryCall → QueryResult)
    (tpl q : String) (ms : List Message) (chunks : List String)
    (out outv : HandlerOutput)
    (h : segesHandleQuery store tpl ms q chunks = some out)
    (hv : vtdatHandleQuery store tpl ms q chunks = some outv) :
    out.renderedPrompt =
      formatPrompt (tpl ++ " " ++ segesEndOfPrompt) q out.contextBlock ∧
    outv.renderedPrompt = formatPrompt tpl q outv.contextBlock := by
  obtain ⟨c, m, s, -, -, -, ho⟩ := segesHandleQuery_inv _ _ _ _ _ _ h
  obtain ⟨c', -, hov⟩ := vtdatHandleQuery_inv _ _ _ _ _ _ hv
  subst ho hov
  exact ⟨rfl, rfl⟩

/-- Witness for C7 at a concrete store, template and query. -/
theorem C7_prompt_from_template_witness :
    exSegesOut.renderedPrompt =
      formatPrompt ("{context}|{query}" ++ " " ++ segesEndOfPrompt) "hej"
        exSegesOut.contextBlock ∧
    exVtdatOut.renderedPrompt = formatPrompt "{context}|{query}" "hej"
      exVtdatOut.contextBlock :=
  C7_prompt_from_template exStore "{context}|{query}" "hej" [] ["a", "b"]
    exSegesOut exVtdatOut exSeges_eval exVtdat_eval

/-- An example Wikipedia page for the C8 witness. -/
def exWikiPage : WikiPage :=
  { title := "Side", summary := "Resume",
    content := "Intro.\n== Historie ==\nTekst." }

/-- C9: ingesting a fan-wiki page whose sections sequence is empty yields a
Markdown file holding exactly the Summary heading with the page summary
and the page-title heading with the page body, with no section
sub-headings and no section bodies. -/
theorem C9_zero_sections (page : FandomPage) (h : page.sections = []) :
    create_and_save_md_file page =
      [MdBlock.docTitle page.title, MdBlock.header 1 "Summary",
       MdBlock.paragraph page.summary, MdBlock.newline,
       MdBlock.header 1 page.title, MdBlock.paragraph page.content,
       MdBlock.newline] := by
  simp [create_and_save_md_file, h]

/-- An example fan-wiki page with zero sections for the C9 witness. -/
def exFandomPage : FandomPage :=
  { title := "Kruppe", summary := "Resume", content := "Krop.", sections := [] }

/-- Witness for C9 on a concrete zero-section page. -/
theorem C9_zero_sections_witness :
    exFandomPage.sections = [] ∧
    create_and_save_md_file exFandomPage =
      [MdBlock.docTitle "Kruppe", MdBlock.header 1 "Summary",
       MdBlock.paragraph "Resume", MdBlock.newline, MdBlock.header 1 "Kruppe",
       MdBlock.paragraph "Krop.", MdBlock.newline] :=
  ⟨rfl, C9_zero_sections exFandomPage rfl⟩

/-- C10: the citation-suffix stage of the seges handler is total exactly
under the claimed precondition: if the metadata list is at least as long as
the documents list and every metadata dict has both `file_name` and
`page_label`, it produces one suffixed fragment per chunk; if either
condition fails, the stage raises (models as `none`) and the whole handler
fails before any prompt is rendered or any transcript entry is appended
(the handler yields no output at all). -/
theorem C10_suffix_totality (store : ChromaQueryCall → QueryResult)
    (tpl q : String) (ms : List Message) (chunks : List String)
    (context : List String) (metadatas : List Dict)
    (hd : (store (segesRetrievalCall q)).documents.head? = some context)
    (hm : (store (segesRetrievalCall q)).metadatas.head? = some metadatas) :
    ((context.length ≤ metadatas.length ∧
        ∀ m ∈ metadatas, hasKey m "file_name" = true ∧ hasKey m "page_label" = true) →
      ∃ sctx, extractAndSuffix context metadatas = some sctx ∧
        sctx.length = context.length) ∧
    (¬ (context.length ≤ metadatas.length ∧
        ∀ m ∈ metadatas, hasKey m "file_name" = true ∧ hasKey m "page_label" = true) →
      extractAndSuffix context metadatas = none ∧
      segesHandleQuery store tpl ms q chunks = none) := by
  constructor
  · intro hcond
    have hsome : (extractAndSuffix context metadatas).isSome :=
      (extractAndSuffix_isSome_iff _ _).mpr hcond
    obtain ⟨sctx, hsx⟩ := Option.isSome_iff_exists.mp hsome
    exact ⟨sctx, hsx, extractAndSuffix_length _ _ _ hsx⟩
  · intro hcond
    have hnone : extractAndSuffix context metadatas = none := by
      rw [← Option.not_isSome_iff_eq_none, extractAndSuffix_isSome_iff]
      simpa using hcond
    exact ⟨hnone, segesHandleQuery_none _ _ _ _ _ _ _ hd hm hnone⟩

/-- A metadata dict lacking `page_label`, violating the C10 precondition. -/
def exBadMeta : Dict := [("file_name", "rapport1.pdf")]

/-- A store whose single chunk has incomplete metadata. -/
def exBadStore : ChromaQueryCall → QueryResult := fun _ =>
  { documents := [["chunk one"]], metadatas := [[exBadMeta]] }

/-- Witness for C10: on a concrete retrieval result with a metadata dict
missing `page_label`, the suffix stage and the whole seges handler fail. -/
theorem C10_suffix_totality_witness :
    extractAndSuffix ["chunk one"] [exBadMeta] = none ∧
    segesHandleQuery exBadStore "{context}|{query}" [] "hej" ["a"] = none :=
  (C10_suffix_totality exBadStore "{context}|{query}" "hej" [] ["a"]
      ["chunk one"] [exBadMeta] rfl rfl).2 (by decide)

/-- A fragment of encyclopedia page content: prose (which may span several
lines), or an inline section heading of level two, three or four. -/
inductive WikiPiece where
  | prose : String → WikiPiece
  | h2 : String → WikiPiece
  | h3 : String → WikiPiece
  | h4 : String → WikiPiece
deriving DecidableEq, Repr

/-- The fragment carries no equals sign outside its own heading markup:
prose text and heading titles are free of the marker character. -/
def WikiPiece.eqFree : WikiPiece → Prop
  | .prose s => '=' ∉ s.data
  | .h2 t => '=' ∉ t.data
  | .h3 t => '=' ∉ t.data
  | .h4 t => '=' ∉ t.data

instance : DecidablePred WikiPiece.eqFree := fun b =>
  match b with
  | .prose s => inferInstanceAs (Decidable ('=' ∉ s.data))
  | .h2 t => inferInstanceAs (Decidable ('=' ∉ t.data))
  | .h3 t => inferInstanceAs (Decidable ('=' ∉ t.data))
  | .h4 t => inferInstanceAs (Decidable ('=' ∉ t.data))

/-- The raw wiki markup of a fragment as it appears in scraped page content:
headings are newline-preceded runs of equals signs around the title, closed
by a matching run and a newline. -/
def wikiMarkup : WikiPiece → String
  | .prose s => s
  | .h2 t => "\n== " ++ t ++ " ==\n"
  | .h3 t => "\n=== " ++ t ++ " ===\n"
  | .h4 t => "\n==== " ++ t ++ " ====\n"

/-- The text the replace chain of `create_and_save_wiki_md_file` produces for
a fragment: the newline-preceded opening marker becomes a run of hashes
(consuming the newline), the closing marker is deleted. -/
def mdMarkup : WikiPiece → String
  | .prose s => s
  | .h2 t => "# " ++ t ++ " \n"
  | .h3 t => "## " ++ t ++ " \n"
  | .h4 t => "### " ++ t ++ " \n"

/-- A whole page content assembled from rendered fragments. -/
def joinPieces (f : WikiPiece → String) : List WikiPiece → String
  | [] => ""
  | b :: bs => f b ++ joinPieces f bs

/-- The character-level form of a fragment after the first `k` of the six
replace steps of `wikiContentTransform` have run (`k = 0` is the raw wiki
markup, `k = 6` the final Markdown). -/
def pieceAt (k : Nat) : WikiPiece → List Char
  | .prose s => s.data
  | .h2 t =>
      if k ≤ 4 then '\n' :: '=' :: '=' :: ' ' :: (t.data ++ [' ', '=', '=', '\n'])
      else if k = 5 then '#' :: ' ' :: (t.data ++ [' ', '=', '=', '\n'])
      else '#' :: ' ' :: (t.data ++ [' ', '\n'])
  | .h3 t =>
      if k ≤ 2 then '\n' :: '=' :: '=' :: '=' :: ' ' :: (t.data ++ [' ', '=', '=', '=', '\n'])
      else if k = 3 then '#' :: '#' :: ' ' :: (t.data ++ [' ', '=', '=', '=', '\n'])
      else '#' :: '#' :: ' ' :: (t.data ++ [' ', '\n'])
  | .h4 t =>
      if k = 0 then '\n' :: '=' :: '=' :: '=' :: '=' :: ' ' :: (t.data ++ [' ', '=', '=', '=', '=', '\n'])
      else if k = 1 then '#' :: '#' :: '#' :: ' ' :: (t.data ++ [' ', '=', '=', '=', '=', '\n'])
      else '#' :: '#' :: '#' :: ' ' :: (t.data ++ [' ', '\n'])

/-- All fragments after `k` replace steps, concatenated. -/
def renderAt (k : Nat) (bs : List WikiPiece) : List Char :=
  (bs.map (pieceAt k)).flatten

theorem renderAt_nil (k : Nat) : renderAt k [] = [] := rfl

theorem renderAt_cons (k : Nat) (b : WikiPiece) (bs : List WikiPiece) :
    renderAt k (b :: bs) = pieceAt k b ++ renderAt k bs := by
  simp [renderAt]

theorem renderAt_head_ne (k : Nat) (bs : List WikiPiece)
    (h : ∀ b ∈ bs, WikiPiece.eqFree b) :
    (renderAt k bs).head? ≠ some '=' := by
  induction bs with
  | nil => simp [renderAt_nil]
  | cons b bs ih =>
    rw [renderAt_cons]
    have hb := h b (List.mem_cons_self b bs)
    have ih' := ih (fun x hx => h x (List.mem_cons_of_mem _ hx))
    cases b with
    | prose s => exact head_ne_eq_append _ _ hb ih'
    | h2 t =>
      simp only [pieceAt]
      split_ifs <;> simp
    | h3 t =>
      simp only [pieceAt]
      split_ifs <;> simp
    | h4 t =>
      simp only [pieceAt]
      split_ifs <;> simp

theorem isPrefixOf_eq_false_of_head_ne (ps l : List Char)
    (hl : l.head? ≠ some '=') : (('=' :: ps).isPrefixOf l) = false := by
  cases l with
  | nil => rfl
  | cons c l' =>
    have hc : ('=' == c) = false :=
      beq_eq_false_iff_ne.mpr (fun h => hl (by simp [← h]))
    simp [List.isPrefixOf, hc]

theorem replaceChars_append_nlPat_noNl (ps rep a b : List Char)
    (ha : '=' ∉ a) (hal : a.getLast? ≠ some '\n') :
    replaceChars ('\n' :: '=' :: ps) rep (a ++ b) =
      a ++ replaceChars ('\n' :: '=' :: ps) rep b := by
  induction a with
  | nil => simp
  | cons c a ih =>
    have ha' : '=' ∉ a := fun hm => ha (List.mem_cons_of_mem _ hm)
    have h : ('\n' :: '=' :: ps).isPrefixOf (c :: (a ++ b)) = false := by
      cases a with
      | nil =>
        have hc : ¬ c = '\n' := by simpa using hal
        have hc' : ('\n' == c) = false :=
          beq_eq_false_iff_ne.mpr (fun hh => hc hh.symm)
        simp [List.isPrefixOf, hc']
      | cons d a' =>
        have hd : ¬ d = '=' := fun hh => ha' (hh ▸ List.mem_cons_self d a')
        by_cases hc : c = '\n'
        · subst hc
          have hd' : ('=' == d) = false :=
            beq_eq_false_iff_ne.mpr (fun hh => hd hh.symm)
          simp [List.isPrefixOf, hd']
        · have hc' : ('\n' == c) = false :=
            beq_eq_false_iff_ne.mpr (fun hh => hc hh.symm)
          simp [List.isPrefixOf, hc']
    simp only [List.cons_append]
    rw [replaceChars_skip _ _ _ _ h]
    cases a with
    | nil => simp
    | cons d a' =>
      have hal' : (d :: a').getLast? ≠ some '\n' := by
        intro hcon
        exact hal (by rw [List.getLast?_cons_cons]; exact hcon)
      rw [ih ha' hal']

theorem wikiStep1 (bs : List WikiPiece) (h : ∀ b ∈ bs, WikiPiece.eqFree b) :
    replaceChars ['\n', '=', '=', '=', '='] ['#', '#', '#'] (renderAt 0 bs) =
      renderAt 1 bs := by
  induction bs with
  | nil => simp [renderAt_nil, replaceChars_nil]
  | cons b bs ih =>
    have hb := h b (List.mem_cons_self b bs)
    have ih' := ih (fun x hx => h x (List.mem_cons_of_mem _ hx))
    have hne := renderAt_head_ne 0 bs (fun x hx => h x (List.mem_cons_of_mem _ hx))
    rw [renderAt_cons, renderAt_cons]
    cases b with
    | prose s =>
      have hb' : '=' ∉ s.data := hb
      simp only [pieceAt]
      rw [replaceChars_append_nlPat _ _ _ _ hb' hne, ih']
    | h2 t =>
      have hb' : '=' ∉ t.data := hb
      simp [pieceAt, replaceChars_skip, replaceChars_append_nlPat,
            isPrefixOf_eq_false_of_head_ne, List.isPrefixOf, hb', hne, ih']
    | h3 t =>
      have hb' : '=' ∉ t.data := hb
      simp [pieceAt, replaceChars_skip, replaceChars_append_nlPat,
            isPrefixOf_eq_false_of_head_ne, List.isPrefixOf, hb', hne, ih']
    | h4 t =>
      have hb' : '=' ∉ t.data := hb
      simp [pieceAt, replaceChars_match_nl4, replaceChars_skip, replaceChars_append_nlPat,
            isPrefixOf_eq_false_of_head_ne, List.isPrefixOf, hb', hne, ih']

theorem wikiStep2 (bs : List WikiPiece) (h : ∀ b ∈ bs, WikiPiece.eqFree b) :
    replaceChars ['=', '=', '=', '='] [] (renderAt 1 bs) = renderAt 2 bs := by
  induction bs with
  | nil => simp [renderAt_nil, replaceChars_nil]
  | cons b bs ih =>
    have hb := h b (List.mem_cons_self b bs)
    have ih' := ih (fun x hx => h x (List.mem_cons_of_mem _ hx))
    have hne := renderAt_head_ne 1 bs (fun x hx => h x (List.mem_cons_of_mem _ hx))
    rw [renderAt_cons, renderAt_cons]
    cases b with
    | prose s =>
      have hb' : '=' ∉ s.data := hb
      simp only [pieceAt]
      rw [replaceChars_append_headFree _ _ _ _ _ hb', ih']
    | h2 t =>
      have hb' : '=' ∉ t.data := hb
      simp [pieceAt, replaceChars_skip, replaceChars_append_headFree,
            isPrefixOf_eq_false_of_head_ne, List.isPrefixOf, hb', hne, ih']
    | h3 t =>
      have hb' : '=' ∉ t.data := hb
      simp [pieceAt, replaceChars_skip, replaceChars_append_headFree,
            isPrefixOf_eq_false_of_head_ne, List.isPrefixOf, hb', hne, ih']
    | h4 t =>
      have hb' : '=' ∉ t.data := hb
      simp [pieceAt, replaceChars_match_eq4, replaceChars_skip, replaceChars_append_headFree,
            isPrefixOf_eq_false_of_head_ne, List.isPrefixOf, hb', hne, ih']

theorem wikiStep3 (bs : List WikiPiece) (h : ∀ b ∈ bs, WikiPiece.eqFree b) :
    replaceChars ['\n', '=', '=', '='] ['#', '#'] (renderAt 2 bs) = renderAt 3 bs := by
  induction bs with
  | nil => simp [renderAt_nil, replaceChars_nil]
  | cons b bs ih =>
    have hb := h b (List.mem_cons_self b bs)
    have ih' := ih (fun x hx => h x (List.mem_cons_of_mem _ hx))
    have hne := renderAt_head_ne 2 bs (fun x hx => h x (List.mem_cons_of_mem _ hx))
    rw [renderAt_cons, renderAt_cons]
    cases b with
    | prose s =>
      have hb' : '=' ∉ s.data := hb
      simp only [pieceAt]
      rw [replaceChars_append_nlPat _ _ _ _ hb' hne, ih']
    | h2 t =>
      have hb' : '=' ∉ t.data := hb
      simp [pieceAt, replaceChars_skip, replaceChars_append_nlPat,
            isPrefixOf_eq_false_of_head_ne, List.isPrefixOf, hb', hne, ih']
    | h3 t =>
      have hb' : '=' ∉ t.data := hb
      simp [pieceAt, replaceChars_match_nl3, replaceChars_skip, replaceChars_append_nlPat,
            isPrefixOf_eq_false_of_head_ne, List.isPrefixOf, hb', hne, ih']
    | h4 t =>
      have hb' : '=' ∉ t.data := hb
      simp [pieceAt, replaceChars_skip, replaceChars_append_nlPat,
            isPrefixOf_eq_false_of_head_ne, List.isPrefixOf, hb', hne, ih']

theorem wikiStep4 (bs : List WikiPiece) (h : ∀ b ∈ bs, WikiPiece.eqFree b) :
    replaceChars ['=', '=', '='] [] (renderAt 3 bs) = renderAt 4 bs := by
  induction bs with
  | nil => simp [renderAt_nil, replaceChars_nil]
  | cons b bs ih =>
    have hb := h b (List.mem_cons_self b bs)
    have ih' := ih (fun x hx => h x (List.mem_cons_of_mem _ hx))
    have hne := renderAt_head_ne 3 bs (fun x hx => h x (List.mem_cons_of_mem _ hx))
    rw [renderAt_cons, renderAt_cons]
    cases b with
    | prose s =>
      have hb' : '=' ∉ s.data := hb
      simp only [pieceAt]
      rw [replaceChars_append_headFree _ _ _ _ _ hb', ih']
    | h2 t =>
      have hb' : '=' ∉ t.data := hb
      simp [pieceAt, replaceChars_skip, replaceChars_append_headFree,
            isPrefixOf_eq_false_of_head_ne, List.isPrefixOf, hb', hne, ih']
    | h3 t =>
      have hb' : '=' ∉ t.data := hb
      simp [pieceAt, replaceChars_match_eq3, replaceChars_skip, replaceChars_append_headFree,
            isPrefixOf_eq_false_of_head_ne, List.isPrefixOf, hb', hne, ih']
    | h4 t =>
      have hb' : '=' ∉ t.data := hb
      simp [pieceAt, replaceChars_skip, replaceChars_append_headFree,
            isPrefixOf_eq_false_of_head_ne, List.isPrefixOf, hb', hne, ih']

theorem wikiStep5 (bs : List WikiPiece) (h : ∀ b ∈ bs, WikiPiece.eqFree b) :
    replaceChars ['\n', '=', '='] ['#'] (renderAt 4 bs) = renderAt 5 bs := by
  induction bs with
  | nil => simp [renderAt_nil, replaceChars_nil]
  | cons b bs ih =>
    have hb := h b (List.mem_cons_self b bs)
    have ih' := ih (fun x hx => h x (List.mem_cons_of_mem _ hx))
    have hne := renderAt_head_ne 4 bs (fun x hx => h x (List.mem_cons_of_mem _ hx))
    rw [renderAt_cons, renderAt_cons]
    cases b with
    | prose s =>
      have hb' : '=' ∉ s.data := hb
      simp only [pieceAt]
      rw [replaceChars_append_nlPat _ _ _ _ hb' hne, ih']
    | h2 t =>
      have hb' : '=' ∉ t.data := hb
      simp [pieceAt, replaceChars_match_nl2, replaceChars_skip, replaceChars_append_nlPat,
            isPrefixOf_eq_false_of_head_ne, List.isPrefixOf, hb', hne, ih']
    | h3 t =>
      have hb' : '=' ∉ t.data := hb
      simp [pieceAt, replaceChars_skip, replaceChars_append_nlPat,
            isPrefixOf_eq_false_of_head_ne, List.isPrefixOf, hb', hne, ih']
    | h4 t =>
      have hb' : '=' ∉ t.data := hb
      simp [pieceAt, replaceChars_skip, replaceChars_append_nlPat,
            isPrefixOf_eq_false_of_head_ne, List.isPrefixOf, hb', hne, ih']

theorem wikiStep6 (bs : List WikiPiece) (h : ∀ b ∈ bs, WikiPiece.eqFree b) :
    replaceChars ['=', '='] [] (renderAt 5 bs) = renderAt 6 bs := by
  induction bs with
  | nil => simp [renderAt_nil, replaceChars_nil]
  | cons b bs ih =>
    have hb := h b (List.mem_cons_self b bs)
    have ih' := ih (fun x hx => h x (List.mem_cons_of_mem _ hx))
    have hne := renderAt_head_ne 5 bs (fun x hx => h x (List.mem_cons_of_mem _ hx))
    rw [renderAt_cons, renderAt_cons]
    cases b with
    | prose s =>
      have hb' : '=' ∉ s.data := hb
      simp only [pieceAt]
      rw [replaceChars_append_headFree _ _ _ _ _ hb', ih']
    | h2 t =>
      have hb' : '=' ∉ t.data := hb
      simp [pieceAt, replaceChars_match_eq2, replaceChars_skip, replaceChars_append_headFree,
            isPrefixOf_eq_false_of_head_ne, List.isPrefixOf, hb', hne, ih']
    | h3 t =>
      have hb' : '=' ∉ t.data := hb
      simp [pieceAt, replaceChars_skip, replaceChars_append_headFree,
            isPrefixOf_eq_false_of_head_ne, List.isPrefixOf, hb', hne, ih']
    | h4 t =>
      have hb' : '=' ∉ t.data := hb
      simp [pieceAt, replaceChars_skip, replaceChars_append_headFree,
            isPrefixOf_eq_false_of_head_ne, List.isPrefixOf, hb', hne, ih']

theorem wikiContentTransform_data (s : String) :
    (wikiContentTransform s).data =
      replaceChars ['=', '='] []
        (replaceChars ['\n', '=', '='] ['#']
          (replaceChars ['=', '=', '='] []
            (replaceChars ['\n', '=', '=', '='] ['#', '#']
              (replaceChars ['=', '=', '=', '='] []
                (replaceChars ['\n', '=', '=', '=', '='] ['#', '#', '#'] s.data))))) := rfl

theorem renderAt_zero (bs : List WikiPiece) :
    renderAt 0 bs = (joinPieces wikiMarkup bs).data := by
  induction bs with
  | nil => rfl
  | cons b bs ih =>
    rw [renderAt_cons]
    simp only [joinPieces]
    rw [String.data_append, ← ih]
    cases b with
    | prose s => rfl
    | h2 t =>
      have e1 : ("\n== " : String).data = ['\n', '=', '=', ' '] := rfl
      have e2 : (" ==\n" : String).data = [' ', '=', '=', '\n'] := rfl
      simp [pieceAt, wikiMarkup, String.data_append, e1, e2]
    | h3 t =>
      have e1 : ("\n=== " : String).data = ['\n', '=', '=', '=', ' '] := rfl
      have e2 : (" ===\n" : String).data = [' ', '=', '=', '=', '\n'] := rfl
      simp [pieceAt, wikiMarkup, String.data_append, e1, e2]
    | h4 t =>
      have e1 : ("\n==== " : String).data = ['\n', '=', '=', '=', '=', ' '] := rfl
      have e2 : (" ====\n" : String).data = [' ', '=', '=', '=', '=', '\n'] := rfl
      simp [pieceAt, wikiMarkup, String.data_append, e1, e2]

theorem renderAt_six (bs : List WikiPiece) :
    renderAt 6 bs = (joinPieces mdMarkup bs).data := by
  induction bs with
  | nil => rfl
  | cons b bs ih =>
    rw [renderAt_cons]
    simp only [joinPieces]
    rw [String.data_append, ← ih]
    cases b with
    | prose s => rfl
    | h2 t =>
      have e1 : ("# " : String).data = ['#', ' '] := rfl
      have e2 : (" \n" : String).data = [' ', '\n'] := rfl
      simp [pieceAt, mdMarkup, String.data_append, e1, e2]
    | h3 t =>
      have e1 : ("## " : String).data = ['#', '#', ' '] := rfl
      have e2 : (" \n" : String).data = [' ', '\n'] := rfl
      simp [pieceAt, mdMarkup, String.data_append, e1, e2]
    | h4 t =>
      have e1 : ("### " : String).data = ['#', '#', '#', ' '] := rfl
      have e2 : (" \n" : String).data = [' ', '\n'] := rfl
      simp [pieceAt, mdMarkup, String.data_append, e1, e2]

theorem wikiTransform_pieces (bs : List WikiPiece)
    (h : ∀ b ∈ bs, WikiPiece.eqFree b) :
    wikiContentTransform (joinPieces wikiMarkup bs) = joinPieces mdMarkup bs := by
  apply String.ext
  rw [wikiContentTransform_data, ← renderAt_zero bs, wikiStep1 bs h, wikiStep2 bs h,
      wikiStep3 bs h, wikiStep4 bs h, wikiStep5 bs h, wikiStep6 bs h, renderAt_six bs]

theorem mdMarkup_eqFree (bs : List WikiPiece)
    (h : ∀ b ∈ bs, WikiPiece.eqFree b) :
    '=' ∉ (joinPieces mdMarkup bs).data := by
  induction bs with
  | nil => simp [joinPieces]
  | cons b bs ih =>
    have hb := h b (List.mem_cons_self b bs)
    have ih' := ih (fun x hx => h x (List.mem_cons_of_mem _ hx))
    simp only [joinPieces]
    rw [String.data_append]
    cases b with
    | prose s =>
      have hb' : '=' ∉ s.data := hb
      simp [mdMarkup, List.mem_append, hb', ih']
    | h2 t =>
      have hb' : '=' ∉ t.data := hb
      have e1 : ("# " : String).data = ['#', ' '] := rfl
      have e2 : (" \n" : String).data = [' ', '\n'] := rfl
      simp [mdMarkup, String.data_append, e1, e2, List.mem_append, hb', ih']
    | h3 t =>
      have hb' : '=' ∉ t.data := hb
      have e1 : ("## " : String).data = ['#', '#', ' '] := rfl
      have e2 : (" \n" : String).data = [' ', '\n'] := rfl
      simp [mdMarkup, String.data_append, e1, e2, List.mem_append, hb', ih']
    | h4 t =>
      have hb' : '=' ∉ t.data := hb
      have e1 : ("### " : String).data = ['#', '#', '#', ' '] := rfl
      have e2 : (" \n" : String).data = [' ', '\n'] := rfl
      simp [mdMarkup, String.data_append, e1, e2, List.mem_append, hb', ih']

theorem wikiTransform_deletes_run2 (x y : String)
    (hx : '=' ∉ x.data) (hy : '=' ∉ y.data) (hxl : x.data.getLast? ≠ some '\n') :
    wikiContentTransform (x ++ "==" ++ y) = x ++ y := by
  apply String.ext
  rw [wikiContentTransform_data]
  have e5 : ("==" : String).data = ['=', '='] := rfl
  simp only [String.data_append, e5, List.append_assoc, List.cons_append, List.nil_append]
  simp [replaceChars_append_nlPat_noNl, replaceChars_append_headFree, replaceChars_skip,
        replaceChars_eqFree, isPrefixOf_eq_false_of_eqFree, replaceChars_match_eq2,
        List.isPrefixOf, hx, hy, hxl]

theorem wikiTransform_deletes_run3 (x y : String)
    (hx : '=' ∉ x.data) (hy : '=' ∉ y.data) (hxl : x.data.getLast? ≠ some '\n') :
    wikiContentTransform (x ++ "===" ++ y) = x ++ y := by
  apply String.ext
  rw [wikiContentTransform_data]
  have e5 : ("===" : String).data = ['=', '=', '='] := rfl
  simp only [String.data_append, e5, List.append_assoc, List.cons_append, List.nil_append]
  simp [replaceChars_append_nlPat_noNl, replaceChars_append_headFree, replaceChars_skip,
        replaceChars_eqFree, isPrefixOf_eq_false_of_eqFree, replaceChars_match_eq3,
        List.isPrefixOf, hx, hy, hxl]

theorem wikiTransform_deletes_run4 (x y : String)
    (hx : '=' ∉ x.data) (hy : '=' ∉ y.data) (hxl : x.data.getLast? ≠ some '\n') :
    wikiContentTransform (x ++ "====" ++ y) = x ++ y := by
  apply String.ext
  rw [wikiContentTransform_data]
  have e5 : ("====" : String).data = ['=', '=', '=', '='] := rfl
  simp only [String.data_append, e5, List.append_assoc, List.cons_append, List.nil_append]
  simp [replaceChars_append_nlPat_noNl, replaceChars_append_headFree, replaceChars_skip,
        replaceChars_eqFree, isPrefixOf_eq_false_of_eqFree, replaceChars_match_eq4,
        List.isPrefixOf, hx, hy, hxl]

/-- C8 (counterexample): the page content "a == b" carries an inline run of
two equals signs that is not preceded by a newline; the replace chain of
`create_and_save_wiki_md_file` deletes it, producing "a  b", instead of
rewriting it into the "#" Markdown heading syntax the claim prescribes for
every run of two equals signs — so the claim as stated is false on this
concrete input. -/
theorem C8_counterexample :
    wikiContentTransform "a == b" = "a  b" ∧ ("a  b" : String) ≠ "a # b" := by
  have h := wikiTransform_deletes_run2 "a " " b" (by decide) (by decide) (by decide)
  have e1 : ("a " ++ "==" ++ " b" : String) = "a == b" := rfl
  have e2 : ("a " ++ " b" : String) = "a  b" := rfl
  rw [e1, e2] at h
  exact ⟨h, by decide⟩

/-- C8 (amended): the encyclopedia ingestion saves as Markdown body the page
content passed through `wikiContentTransform`; for any page content made of
equals-free prose fragments and inline section headings of level two to four
(in any number and order), every newline-preceded heading marker is
rewritten — together with its closing run — into `#`/`##`/`###` Markdown
heading syntax respectively (the rewrite consuming the preceding newline),
and no equals-sign markup remains in the output; a run of two, three or four
equals signs that is not preceded by a newline is deleted, not rewritten. -/
theorem C8_wiki_heading_rewrite (page : WikiPage) (bs : List WikiPiece)
    (hbs : ∀ b ∈ bs, WikiPiece.eqFree b) (x y : String)
    (hx : '=' ∉ x.data) (hy : '=' ∉ y.data) (hxl : x.data.getLast? ≠ some '\n') :
    create_and_save_wiki_md_file page =
      [MdBlock.docTitle page.title, MdBlock.header 1 "Summary",
       MdBlock.paragraph page.summary, MdBlock.newline,
       MdBlock.header 1 page.title,
       MdBlock.paragraph (wikiContentTransform page.content)] ∧
    wikiContentTransform (joinPieces wikiMarkup bs) = joinPieces mdMarkup bs ∧
    '=' ∉ (joinPieces mdMarkup bs).data ∧
    wikiContentTransform (x ++ "==" ++ y) = x ++ y ∧
    wikiContentTransform (x ++ "===" ++ y) = x ++ y ∧
    wikiContentTransform (x ++ "====" ++ y) = x ++ y ∧
    '=' ∉ (x ++ y).data :=
  ⟨rfl, wikiTransform_pieces bs hbs, mdMarkup_eqFree bs hbs,
   wikiTransform_deletes_run2 x y hx hy hxl,
   wikiTransform_deletes_run3 x y hx hy hxl,
   wikiTransform_deletes_run4 x y hx hy hxl,
   by simp [String.data_append, List.mem_append, hx, hy]⟩

/-- An example multi-heading page content for the C8 witness: prose, a
level-two heading, prose, then level-three and level-four headings. -/
def exPieces : List WikiPiece :=
  [WikiPiece.prose "Intro.", WikiPiece.h2 "Historie",
   WikiPiece.prose "Afsnit et.\n", WikiPiece.h3 "Kilder",
   WikiPiece.h4 "Noter", WikiPiece.prose "Slut."]

/-- Witness for the amended C8 on a concrete multi-heading page content and
a concrete non-newline-preceded run. -/
theorem C8_wiki_heading_rewrite_witness :
    wikiContentTransform (joinPieces wikiMarkup exPieces) = joinPieces mdMarkup exPieces ∧
    '=' ∉ (joinPieces mdMarkup exPieces).data ∧
    wikiContentTransform ("a " ++ "==" ++ " b") = "a " ++ " b" := by
  have h := C8_wiki_heading_rewrite exWikiPage exPieces (by decide) "a " " b"
    (by decide) (by decide) (by decide)
  exact ⟨h.2.1, h.2.2.1, h.2.2.2.1⟩
